import Mathlib

/-!
Verification of the venue-matching engine in `src/utils/venueSelection.ts`
(class `VenueSelectionAlgorithm`).

Modelling conventions:
* JavaScript numbers that hold integers coming from the database
  (`capacity`, `area_sqft`, `participants`) are modelled as `Int`.
* Score arithmetic (which divides areas) is modelled over `ℚ`; on the inputs
  appearing in the claims the double-precision arithmetic of the source is
  exact or the comparisons are far from the rounding error, so `ℚ` is a
  faithful model of the score comparisons.
* Nullable arrays (`facilities`, `booked_slots` are `string[] | null`, see the
  SQL migrations) are modelled as `Option (List String)`.
* `String.prototype.includes`, `split` (single-character separator),
  string `<=`/`>=` and `toLowerCase` are modelled by executable functions on
  character lists (`hasSub`, `splitCh`, `jsLeS`, `jsToLower`); JS string
  comparison is lexicographic on UTF-16 units, which agrees with the
  codepoint order used here on all ASCII data handled by the engine.
* The source derives the requested calendar date and the requested `HH:MM`
  time from the single `preferredDateTime` string via the JS `Date` API,
  whose result is locale dependent; the model takes the already-extracted
  pair (`preferredDate`, `preferredTime`) as the requirement fields.
* `Array.prototype.sort` (guaranteed stable by the ECMAScript standard) is
  modelled by the stable `List.mergeSort` with the predicate
  `fun a b => comparator a b ≤ 0`.
* `new Date("2000-01-01 " ++ t).getTime()` in the slot suggester is modelled
  by `timeToMs`, which returns `none` (the model of `NaN`) on strings that
  are not of the canonical `HH:MM` shape produced by the engine's data.
-/

/-- Does `needle` occur at the very start of `hay`? (helper for `hasSub`). -/
def matchesAt : List Char → List Char → Bool
  | [], _ => true
  | _ :: _, [] => false
  | a :: as, b :: bs => a == b && matchesAt as bs

/-- Substring containment on character lists: JS `hay.includes(needle)`. -/
def hasSub : List Char → List Char → Bool
  | needle, [] => needle.isEmpty
  | needle, hay@(_ :: t) => matchesAt needle hay || hasSub needle t

/-- JS `s.includes(sub)`. -/
def jsIncludes (s sub : String) : Bool := hasSub sub.data s.data

/-- Lexicographic strict comparison of character lists (JS string `<`). -/
def lexLt : List Char → List Char → Bool
  | [], [] => false
  | [], _ :: _ => true
  | _ :: _, [] => false
  | a :: as, b :: bs => if a < b then true else if b < a then false else lexLt as bs

/-- JS string `a <= b` (equivalently `!(a > b)`): lexicographic comparison. -/
def jsLeS (a b : String) : Bool := !(lexLt b.data a.data)

/-- JS `s.split(sep)` for a single-character separator, on character lists.
`splitCh sep l` always returns a non-empty list of (possibly empty) chunks. -/
def splitCh (sep : Char) : List Char → List (List Char)
  | [] => [[]]
  | c :: rest =>
    let r := splitCh sep rest
    if c == sep then [] :: r
    else
      match r with
      | h :: t => (c :: h) :: t
      | [] => [[c]]

/-- The priority level of an event request. -/
inductive Priority where
  | high
  | medium
  | low
deriving DecidableEq, Repr

/-- The event category. -/
inductive EventType where
  | technical
  | nonTechnical
deriving DecidableEq, Repr

/-- A venue record (`Tables<'venues'>` plus the migration columns). -/
structure Venue where
  id : String
  name : String
  vtype : String
  capacity : Int
  area_sqft : Int
  facilities : Option (List String)
  booked_slots : Option (List String)
deriving DecidableEq, Repr

/-- The `EventRequirements` interface.  The source stores one
`preferredDateTime : string`; its date and time extraction through the JS
`Date` API is modelled by the already-extracted pair of fields. -/
structure EventRequirements where
  participants : Int
  facilitiesRequired : List String
  preferredDate : String
  preferredTime : String
  priority : Priority
  eventType : EventType
  spaceType : Option String
deriving DecidableEq, Repr

/-- The `VenueMatch` interface (the optional `alternative?` flag is always
set by `findBestVenues`, so it is modelled as `Bool`). -/
structure VenueMatch where
  venue : Venue
  score : ℚ
  reason : String
  alternative : Bool
deriving DecidableEq, Repr

/-- The result record of `findBestVenues`. -/
structure MatchResult where
  exactMatches : List VenueMatch
  alternatives : List VenueMatch
  noMatch : Bool
deriving DecidableEq, Repr

/-- `calculateRequiredArea`: 6 sq ft per person. -/
def calculateRequiredArea (participants : Int) : Int := participants * 6

/-- One step of the `some` callback inside `isVenueAvailable`: does `slot`
conflict with the requested date and time? -/
def slotConflicts (requestedDate requestedTime slot : String) : Bool :=
  if jsIncludes slot requestedDate then
    match (splitCh ' ' slot.data)[1]? with
    | some timeRange =>
      if !timeRange.isEmpty && hasSub ['-'] timeRange then
        let parts := splitCh '-' timeRange
        jsLeS (String.mk (parts.headD [])) requestedTime &&
          jsLeS requestedTime (String.mk (parts.getD 1 []))
      else false
    | none => false
  else false

/-- `isVenueAvailable`. -/
def isVenueAvailable (venue : Venue) (requestedDate requestedTime : String) : Bool :=
  match venue.booked_slots with
  | none => true
  | some slots =>
    if slots.isEmpty then true
    else !(slots.any (slotConflicts requestedDate requestedTime))

/-- JS `toLowerCase`, character by character (executable form of
`String.toLower`; the engine's data is ASCII). -/
def jsToLower (s : String) : String := String.mk (s.data.map Char.toLower)

/-- The bidirectional case-insensitive substring test of `hasFacilities`. -/
def facilityMatches (required available : String) : Bool :=
  jsIncludes (jsToLower available) (jsToLower required) ||
    jsIncludes (jsToLower required) (jsToLower available)

/-- `hasFacilities`. -/
def hasFacilities (venue : Venue) (requiredFacilities : List String) : Bool :=
  if requiredFacilities.isEmpty then true
  else
    match venue.facilities with
    | none => false
    | some fs =>
      if fs.isEmpty then false
      else requiredFacilities.all (fun req => fs.any (fun av => facilityMatches req av))

/-- JS `Math.max` on rationals (executable form of `max`). -/
def qmax (a b : ℚ) : ℚ := if a ≤ b then b else a

/-- `calculateScore`. -/
def calculateScore (venue : Venue) (requirements : EventRequirements)
    (isAvailable hasFac areaMatch : Bool) : ℚ :=
  (if areaMatch then
    qmax 0 (100 - ((venue.area_sqft : ℚ) /
      ((calculateRequiredArea requirements.participants : Int) : ℚ) - 1) * 20)
  else 0)
  + (if isAvailable then 50 else 0)
  + (if hasFac then 30 else 0)
  + (if requirements.participants ≤ venue.capacity then 20 else 0)
  + (if requirements.priority = Priority.high then 10 else 0)

/-- The list interpolated into the `Missing facilities:` reason: the required
facilities for which no venue facility *contains* them (note: one direction
only, unlike `hasFacilities`). -/
def missingFacilities (requirements : EventRequirements) (venue : Venue) : List String :=
  requirements.facilitiesRequired.filter (fun req =>
    !((venue.facilities.getD []).any (fun f => jsIncludes (jsToLower f) (jsToLower req))))

/-- The body of the `forEach` in `findBestVenues`: classify one venue,
computing its score, reason and alternative flag. -/
def classifyVenue (requirements : EventRequirements) (venue : Venue) : VenueMatch :=
  let requiredArea := calculateRequiredArea requirements.participants
  let areaMatch : Bool := decide (requiredArea ≤ venue.area_sqft)
  let available := isVenueAvailable venue requirements.preferredDate requirements.preferredTime
  let hasFac := hasFacilities venue requirements.facilitiesRequired
  let score := calculateScore venue requirements available hasFac areaMatch
  let reason :=
    if areaMatch && available && hasFac then
      "Perfect match: Adequate space, available, and has required facilities"
    else if !areaMatch then
      "Too small: Needs " ++ toString requiredArea ++ " sq ft, has " ++
        toString venue.area_sqft ++ " sq ft"
    else if !available then
      "Venue is booked at requested time"
    else if !hasFac then
      "Missing facilities: " ++ String.intercalate ", " (missingFacilities requirements venue)
    else ""
  { venue := venue, score := score, reason := reason
    alternative := !areaMatch || !available || !hasFac }

/-- Comparator `(a, b) => b.score - a.score` (sort descending by score). -/
def scoreDescLe (a b : VenueMatch) : Bool := decide (b.score - a.score ≤ 0)

/-- The high-priority tie-break comparator of `findBestVenues`. -/
def tieCmp (a b : VenueMatch) : ℚ :=
  if |a.score - b.score| < 10 then (a.venue.area_sqft : ℚ) - (b.venue.area_sqft : ℚ)
  else b.score - a.score

/-- `tieCmp` as a sort predicate (`cmp a b ≤ 0` keeps `a` before `b`). -/
def tieLe (a b : VenueMatch) : Bool := decide (tieCmp a b ≤ 0)

/-- `findBestVenues`. -/
def findBestVenues (venues : List Venue) (requirements : EventRequirements) : MatchResult :=
  let all := venues.map (classifyVenue requirements)
  let matchesL := all.filter (fun m => !m.alternative)
  let alternativesL := all.filter (fun m => m.alternative)
  let sortedMatches := matchesL.mergeSort scoreDescLe
  let sortedAlts := alternativesL.mergeSort scoreDescLe
  let finalMatches :=
    if requirements.priority = Priority.high ∧ matchesL ≠ [] then
      sortedMatches.mergeSort tieLe
    else sortedMatches
  { exactMatches := finalMatches
    alternatives := sortedAlts.take 3
    noMatch := matchesL.isEmpty && alternativesL.isEmpty }

/-- The digit value of a character, if it is a decimal digit. -/
def digitVal (c : Char) : Option Int :=
  if c.isDigit then some ((c.toNat : Int) - 48) else none

/-- Model of `new Date("2000-01-01 " ++ s).getTime()` for the time strings
handled by the slot suggester: a canonical `HH:MM` string is mapped to its
millisecond offset, anything else to `none` (the model of `NaN`). -/
def timeToMs (s : String) : Option Int :=
  match s.data with
  | [h1, h2, ':', m1, m2] =>
    match digitVal h1, digitVal h2, digitVal m1, digitVal m2 with
    | some a, some b, some c, some d =>
      let h := a * 10 + b
      let m := c * 10 + d
      if h < 24 ∧ m < 60 then some ((h * 60 + m) * 60000) else none
    | _, _, _, _ => none
  | _ => none

/-- The fixed candidate list of `getSuggestedTimeSlots`. -/
def suggestionTimes : List String := ["09:00", "10:00", "11:00", "14:00", "15:00", "16:00"]

/-- Is a candidate time within two hours of a booked time?  `false` whenever
either string fails to parse (`NaN` comparisons are false in JS). -/
def within2h (time bookedTime : String) : Bool :=
  match timeToMs time, timeToMs bookedTime with
  | some x, some y => decide ((x - y).natAbs < 7200000)
  | _, _ => false

/-- `getSuggestedTimeSlots`. -/
def getSuggestedTimeSlots (venue : Venue) (requestedDate : String) : List String :=
  match venue.booked_slots with
  | none => suggestionTimes
  | some slots =>
    if slots.isEmpty then suggestionTimes
    else
      let bookedTimes :=
        ((slots.filter (fun slot => jsIncludes slot requestedDate)).map (fun slot =>
          match (splitCh ' ' slot.data)[1]? with
          | some timeRange =>
            if timeRange.isEmpty then []
            else (splitCh '-' timeRange).map String.mk
          | none => [])).flatten
      suggestionTimes.filter (fun time =>
        !(bookedTimes.any (fun bookedTime => within2h time bookedTime)))

/-- The area-efficiency term of `calculateScore` as a function of the
required area `R` and the venue area: `max(0, 100 - (a/R - 1)*20)`. -/
def tFun (R : ℚ) (a : Int) : ℚ := qmax 0 (100 - ((a : ℚ) / R - 1) * 20)

/-- The ordering property the C3 claim asserts for consecutive and
non-consecutive entries of the high-priority `exactMatches` list. -/
def tieOrdered (a b : VenueMatch) : Prop :=
  (|a.score - b.score| < 10 → a.venue.area_sqft ≤ b.venue.area_sqft) ∧
  (10 ≤ |a.score - b.score| → b.score < a.score)

/-- The score shape of every exact match under a high-priority request:
area term plus a capacity bonus of 0 or 20 plus 50+30+10. -/
def ExactInv (r : EventRequirements) (m : VenueMatch) : Prop :=
  ∃ c : ℚ, (c = 0 ∨ c = 20) ∧
    m.score = tFun ((calculateRequiredArea r.participants : Int) : ℚ) m.venue.area_sqft + c + 90

/-- A high-priority requirement set (C3 witness input). -/
def c3Req : EventRequirements :=
  { participants := 10, facilitiesRequired := [], preferredDate := "2025-09-26",
    preferredTime := "10:00", priority := Priority.high,
    eventType := EventType.technical, spaceType := none }

/-! ### Helper lemmas -/

theorem le_qmax_left (a b : ℚ) : a ≤ qmax a b := by
  unfold qmax; split_ifs with h
  · exact h
  · exact le_refl a

theorem qmax_le {a b c : ℚ} (h1 : a ≤ c) (h2 : b ≤ c) : qmax a b ≤ c := by
  unfold qmax; split_ifs
  · exact h2
  · exact h1

theorem matchesAt_iff : ∀ (n h : List Char), matchesAt n h = true ↔ ∃ r, h = n ++ r
  | [], h => by simp [matchesAt]
  | _ :: _, [] => by simp [matchesAt]
  | a :: as, b :: bs => by
    simp only [matchesAt, Bool.and_eq_true, beq_iff_eq, matchesAt_iff as bs,
      List.cons_append, List.cons.injEq]
    constructor
    · rintro ⟨rfl, r, rfl⟩; exact ⟨r, rfl, rfl⟩
    · rintro ⟨r, rfl, rfl⟩; exact ⟨rfl, r, rfl⟩

theorem hasSub_iff : ∀ (n h : List Char), hasSub n h = true ↔ ∃ p q, h = p ++ n ++ q
  | n, [] => by
    simp only [hasSub, List.isEmpty_iff]
    constructor
    · rintro rfl; exact ⟨[], [], rfl⟩
    · rintro ⟨p, q, h⟩
      rcases List.append_eq_nil.mp h.symm with ⟨h1, h2⟩
      exact (List.append_eq_nil.mp h1).2
  | n, c :: t => by
    simp only [hasSub, Bool.or_eq_true, matchesAt_iff, hasSub_iff n t]
    constructor
    · rintro (⟨r, hr⟩ | ⟨p, q, hpq⟩)
      · exact ⟨[], r, by simp [hr]⟩
      · exact ⟨c :: p, q, by simp [hpq]⟩
    · rintro ⟨p, q, hpq⟩
      cases p with
      | nil => exact Or.inl ⟨q, by simpa using hpq⟩
      | cons x xs =>
        simp only [List.cons_append, List.cons.injEq] at hpq
        exact Or.inr ⟨xs, q, hpq.2⟩

theorem jsIncludes_iff (s sub : String) :
    jsIncludes s sub = true ↔ ∃ p q, s.data = p ++ sub.data ++ q := by
  unfold jsIncludes; exact hasSub_iff _ _

/-! ### C7: score bounds -/

/-- C7: for every venue and every requirement set with a positive participant
count, and any availability/facility flags, `calculateScore` called with the
area flag computed as in `findBestVenues` returns a score between 0 and 210. -/
theorem calculateScore_bounds (venue : Venue) (requirements : EventRequirements)
    (isAvailable hasFac : Bool) (hp : 0 < requirements.participants) :
    0 ≤ calculateScore venue requirements isAvailable hasFac
        (decide (calculateRequiredArea requirements.participants ≤ venue.area_sqft)) ∧
    calculateScore venue requirements isAvailable hasFac
        (decide (calculateRequiredArea requirements.participants ≤ venue.area_sqft)) ≤ 210 := by
  have hRZ : (0 : Int) < calculateRequiredArea requirements.participants := by
    unfold calculateRequiredArea; omega
  have hR : (0 : ℚ) < ((calculateRequiredArea requirements.participants : Int) : ℚ) := by
    exact_mod_cast hRZ
  unfold calculateScore
  simp only [decide_eq_true_eq]
  by_cases harea : calculateRequiredArea requirements.participants ≤ venue.area_sqft
  · have heff : (1 : ℚ) ≤ (venue.area_sqft : ℚ) /
        ((calculateRequiredArea requirements.participants : Int) : ℚ) :=
      (one_le_div hR).mpr (by exact_mod_cast harea)
    have h1 : (0 : ℚ) ≤ qmax 0 (100 - ((venue.area_sqft : ℚ) /
        ((calculateRequiredArea requirements.participants : Int) : ℚ) - 1) * 20) :=
      le_qmax_left _ _
    have h2 : qmax (0 : ℚ) (100 - ((venue.area_sqft : ℚ) /
        ((calculateRequiredArea requirements.participants : Int) : ℚ) - 1) * 20) ≤ 100 :=
      qmax_le (by norm_num) (by nlinarith)
    rw [if_pos harea]
    constructor <;> split_ifs <;> linarith
  · rw [if_neg harea]
    constructor <;> split_ifs <;> linarith

/-! ### C8: score monotonicity -/

/-- C8: enabling any single condition of `calculateScore` (area flag,
availability flag, facility flag, capacity reaching the participant count,
or priority becoming high), everything else fixed, never lowers the score. -/
theorem calculateScore_monotone (venue : Venue) (requirements : EventRequirements)
    (isAvailable hasFac areaMatch : Bool) (c₂ : Int) :
    calculateScore venue requirements isAvailable hasFac false ≤
      calculateScore venue requirements isAvailable hasFac true ∧
    calculateScore venue requirements false hasFac areaMatch ≤
      calculateScore venue requirements true hasFac areaMatch ∧
    calculateScore venue requirements isAvailable false areaMatch ≤
      calculateScore venue requirements isAvailable true areaMatch ∧
    (venue.capacity < requirements.participants → requirements.participants ≤ c₂ →
      calculateScore venue requirements isAvailable hasFac areaMatch ≤
        calculateScore { venue with capacity := c₂ } requirements isAvailable hasFac areaMatch) ∧
    (requirements.priority ≠ Priority.high →
      calculateScore venue requirements isAvailable hasFac areaMatch ≤
        calculateScore venue { requirements with priority := Priority.high }
          isAvailable hasFac areaMatch) := by
  have hM : (0 : ℚ) ≤ qmax 0 (100 - ((venue.area_sqft : ℚ) /
      ((calculateRequiredArea requirements.participants : Int) : ℚ) - 1) * 20) :=
    le_qmax_left _ _
  refine ⟨?_, ?_, ?_, ?_, ?_⟩
  · unfold calculateScore
    simp only [Bool.false_eq_true, if_false, eq_self_iff_true, if_true]
    split_ifs <;> linarith
  · unfold calculateScore
    simp only [Bool.false_eq_true, if_false, eq_self_iff_true, if_true]
    split_ifs <;> linarith
  · unfold calculateScore
    simp only [Bool.false_eq_true, if_false, eq_self_iff_true, if_true]
    split_ifs <;> linarith
  · intro hcap hc₂
    unfold calculateScore
    dsimp only
    rw [if_neg (not_le.mpr hcap), if_pos hc₂]
    split_ifs <;> linarith
  · intro hpr
    unfold calculateScore
    dsimp only
    rw [if_neg hpr, if_pos rfl]
    split_ifs <;> linarith

/-! ### C9: malformed booking intervals -/

/-- C9: a booked-slot string that contains the requested date but whose
second space-separated token is absent or lacks a `-` separator never makes
a venue unavailable: its conflict test is `false` and removing it from the
booked list does not change `isVenueAvailable` (the function is total, so no
error can be raised). -/
theorem malformedSlot_noConflict (slot requestedDate requestedTime : String)
    (hdate : jsIncludes slot requestedDate = true)
    (hbad : (splitCh ' ' slot.data)[1]? = none ∨
      ∀ timeRange, (splitCh ' ' slot.data)[1]? = some timeRange →
        hasSub ['-'] timeRange = false) :
    slotConflicts requestedDate requestedTime slot = false ∧
    ∀ (venue : Venue) (rest : List String),
      venue.booked_slots = some (slot :: rest) →
      isVenueAvailable venue requestedDate requestedTime =
        isVenueAvailable { venue with booked_slots := some rest }
          requestedDate requestedTime := by
  have hconf : slotConflicts requestedDate requestedTime slot = false := by
    unfold slotConflicts
    simp only [hdate, if_true]
    rcases hbad with hnone | hsome
    · simp [hnone]
    · cases hget : (splitCh ' ' slot.data)[1]? with
      | none => simp
      | some timeRange => simp [hsome timeRange hget]
  refine ⟨hconf, ?_⟩
  intro venue rest hslots
  unfold isVenueAvailable
  simp only [hslots]
  cases rest with
  | nil => simp [hconf]
  | cons r rs => simp [hconf, List.any_cons]

/-- The list the C6 claim describes (modelled from the claim's words, for
comparison with `missingFacilities`): the required facilities with no match
under the bidirectional case-insensitive substring test of `hasFacilities`. -/
def bidirUnmatched (requirements : EventRequirements) (venue : Venue) : List String :=
  requirements.facilitiesRequired.filter (fun req =>
    !((venue.facilities.getD []).any (fun av => facilityMatches req av)))

/-- A concrete venue that is an exact match for `wReq` (witness input). -/
def wVenue : Venue :=
  { id := "w1", name := "Hall", vtype := "hall", capacity := 100, area_sqft := 600,
    facilities := none, booked_slots := none }

/-- A concrete requirement set with no required facilities (witness input). -/
def wReq : EventRequirements :=
  { participants := 10, facilitiesRequired := [], preferredDate := "2025-09-26",
    preferredTime := "10:00", priority := Priority.medium,
    eventType := EventType.technical, spaceType := none }

/-- Venue booked 09:00-10:00 on 2025-09-26 (input refuting C4's scenario). -/
def c4Venue : Venue :=
  { id := "c4", name := "Lab", vtype := "lab", capacity := 100, area_sqft := 1000,
    facilities := none, booked_slots := some ["2025-09-26 09:00-10:00"] }

/-- A venue with an empty facility list that is too small (input refuting C5). -/
def c5Venue : Venue :=
  { id := "c5", name := "Tiny", vtype := "room", capacity := 5, area_sqft := 0,
    facilities := some [], booked_slots := none }

/-- Requirements with one required facility, 10 participants (for the C5 input). -/
def c5Req : EventRequirements :=
  { participants := 10, facilitiesRequired := ["Projector"], preferredDate := "2025-09-26",
    preferredTime := "10:00", priority := Priority.medium,
    eventType := EventType.technical, spaceType := none }

/-- A large, available venue with an empty facility list (C5 witness input). -/
def c5BigVenue : Venue :=
  { id := "c5b", name := "Big", vtype := "hall", capacity := 100, area_sqft := 10000,
    facilities := some [], booked_slots := none }

/-- A venue whose only facility label is "Conditioning" (input refuting C6). -/
def c6Venue : Venue :=
  { id := "c6", name := "Cond", vtype := "hall", capacity := 100, area_sqft := 10000,
    facilities := some ["Conditioning"], booked_slots := none }

/-- Requirements where "Air Conditioning System" matches "Conditioning" only in
the direction the reason filter ignores (for the C6 input). -/
def c6Req : EventRequirements :=
  { participants := 10, facilitiesRequired := ["Air Conditioning System", "Projector"],
    preferredDate := "2025-09-26", preferredTime := "10:00", priority := Priority.medium,
    eventType := EventType.technical, spaceType := none }

/-- Four too-small venues; the fourth has the lowest score (input refuting C1). -/
def c1Venue1 : Venue :=
  { id := "a", name := "A", vtype := "t", capacity := 100, area_sqft := 0,
    facilities := none, booked_slots := none }

/-- Second venue of the C1 input. -/
def c1Venue2 : Venue := { c1Venue1 with id := "b", name := "B" }

/-- Third venue of the C1 input. -/
def c1Venue3 : Venue := { c1Venue1 with id := "c", name := "C" }

/-- Fourth venue of the C1 input: capacity 0, so it scores 80 while the
others score 100 and it is dropped by the alternatives cap. -/
def c1Venue4 : Venue := { c1Venue1 with id := "d", name := "D", capacity := 0 }

/-- The four-venue catalog of the C1 input. -/
def c1Catalog : List Venue := [c1Venue1, c1Venue2, c1Venue3, c1Venue4]

/-- Requirements making all four C1 venues alternatives. -/
def c1Req : EventRequirements :=
  { participants := 10, facilitiesRequired := [], preferredDate := "2025-09-26",
    preferredTime := "10:00", priority := Priority.medium,
    eventType := EventType.technical, spaceType := none }

theorem isEmpty_false_of_ne_nil {α : Type} {l : List α} (h : l ≠ []) : l.isEmpty = false := by
  cases l with
  | nil => exact absurd rfl h
  | cons a t => rfl

/-! ### C2: the availability predicate -/

theorem slotConflicts_iff (requestedDate requestedTime slot : String) :
    slotConflicts requestedDate requestedTime slot = true ↔
      (∃ p q, slot.data = p ++ requestedDate.data ++ q) ∧
      ∃ timeRange, (splitCh ' ' slot.data)[1]? = some timeRange ∧
        timeRange ≠ [] ∧ (∃ p q, timeRange = p ++ ['-'] ++ q) ∧
        jsLeS (String.mk ((splitCh '-' timeRange).headD [])) requestedTime = true ∧
        jsLeS requestedTime (String.mk ((splitCh '-' timeRange).getD 1 [])) = true := by
  unfold slotConflicts
  by_cases hinc : jsIncludes slot requestedDate = true
  case neg =>
    rw [if_neg hinc]
    constructor
    · intro h; exact absurd h (by simp)
    · rintro ⟨hsub, -⟩; exact absurd ((jsIncludes_iff _ _).mpr hsub) hinc
  case pos =>
    rw [if_pos hinc]
    cases hget : (splitCh ' ' slot.data)[1]? with
    | none =>
      constructor
      · intro h; exact absurd h (by simp)
      · rintro ⟨-, tr, htr, -⟩; exact Option.noConfusion htr
    | some timeRange =>
      dsimp only
      by_cases hcond : (!timeRange.isEmpty && hasSub ['-'] timeRange) = true
      · rw [if_pos hcond]
        obtain ⟨hne, hdash⟩ := Bool.and_eq_true_iff.mp hcond
        constructor
        · intro h
          obtain ⟨h1, h2⟩ := Bool.and_eq_true_iff.mp h
          refine ⟨(jsIncludes_iff _ _).mp hinc, timeRange, rfl, ?_,
            (hasSub_iff _ _).mp hdash, h1, h2⟩
          intro hnil
          rw [hnil] at hne
          exact absurd hne (by simp)
        · rintro ⟨-, tr, htr, -, -, h1, h2⟩
          obtain rfl : timeRange = tr := by injection htr
          exact Bool.and_eq_true_iff.mpr ⟨h1, h2⟩
      · rw [if_neg hcond]
        constructor
        · intro h; exact absurd h (by simp)
        · rintro ⟨-, tr, htr, hne, hsub, -⟩
          obtain rfl : timeRange = tr := by injection htr
          refine absurd (Bool.and_eq_true_iff.mpr ⟨?_, (hasSub_iff _ _).mpr hsub⟩) hcond
          simp [isEmpty_false_of_ne_nil hne]

/-- C2: `isVenueAvailable` returns `false` exactly when some booked slot
contains the requested date as a substring and its second space-separated
token contains `-` and splits into a start and end with
`start ≤ requestedTime ≤ end` lexicographically; a venue with no booked
slots (absent or empty list) is always available. -/
theorem isVenueAvailable_iff (venue : Venue) (requestedDate requestedTime : String) :
    (isVenueAvailable venue requestedDate requestedTime = false ↔
      ∃ slot ∈ venue.booked_slots.getD [],
        (∃ p q, slot.data = p ++ requestedDate.data ++ q) ∧
        ∃ timeRange, (splitCh ' ' slot.data)[1]? = some timeRange ∧
          timeRange ≠ [] ∧ (∃ p q, timeRange = p ++ ['-'] ++ q) ∧
          jsLeS (String.mk ((splitCh '-' timeRange).headD [])) requestedTime = true ∧
          jsLeS requestedTime (String.mk ((splitCh '-' timeRange).getD 1 [])) = true) ∧
    ((venue.booked_slots = none ∨ venue.booked_slots = some []) →
      isVenueAvailable venue requestedDate requestedTime = true) := by
  unfold isVenueAvailable
  cases hbs : venue.booked_slots with
  | none => exact ⟨by simp, fun _ => rfl⟩
  | some slots =>
    cases slots with
    | nil => exact ⟨by simp, fun _ => rfl⟩
    | cons s rest =>
      constructor
      · simp only [List.isEmpty_cons, Bool.false_eq_true, if_false, Option.getD_some,
          Bool.not_eq_false', List.any_eq_true, slotConflicts_iff]
      · rintro (h | h) <;> exact absurd h (by simp)

/-! ### C10: exact matches score at least 80 -/

theorem mem_exactMatches {venues : List Venue} {r : EventRequirements} {m : VenueMatch}
    (hm : m ∈ (findBestVenues venues r).exactMatches) :
    m ∈ venues.map (classifyVenue r) ∧ m.alternative = false := by
  simp only [findBestVenues] at hm
  split_ifs at hm <;>
    simp only [List.mem_mergeSort, List.mem_filter, Bool.not_eq_true'] at hm <;>
    exact hm

theorem mem_alternatives {venues : List Venue} {r : EventRequirements} {m : VenueMatch}
    (hm : m ∈ (findBestVenues venues r).alternatives) :
    m ∈ venues.map (classifyVenue r) ∧ m.alternative = true := by
  simp only [findBestVenues] at hm
  have hm' := List.mem_of_mem_take hm
  simp only [List.mem_mergeSort, List.mem_filter] at hm'
  exact hm'

theorem classifyVenue_venue (r : EventRequirements) (v : Venue) :
    (classifyVenue r v).venue = v := rfl

/-- C10: every entry of the `exactMatches` list has score at least 80
(availability and facilities contribute 50 and 30 and the area-efficiency
term is clamped at 0 from below). -/
theorem exactMatch_score_ge (venues : List Venue) (requirements : EventRequirements)
    (hp : 0 < requirements.participants) (m : VenueMatch)
    (hm : m ∈ (findBestVenues venues requirements).exactMatches) :
    80 ≤ m.score := by
  obtain ⟨hmem, halt⟩ := mem_exactMatches hm
  obtain ⟨v, hv, rfl⟩ := List.mem_map.mp hmem
  simp only [classifyVenue, Bool.or_eq_false_iff, Bool.not_eq_false'] at halt ⊢
  obtain ⟨⟨haM, hav⟩, hfac⟩ := halt
  rw [haM, hav, hfac]
  unfold calculateScore
  have hM : (0 : ℚ) ≤ qmax 0 (100 - ((v.area_sqft : ℚ) /
      ((calculateRequiredArea requirements.participants : Int) : ℚ) - 1) * 20) :=
    le_qmax_left _ _
  simp only [if_true]
  split_ifs <;> linarith

theorem wReq_exactMatches :
    (findBestVenues [wVenue] wReq).exactMatches = [classifyVenue wReq wVenue] := by
  have e1 : ([wVenue].map (classifyVenue wReq)).filter (fun m => !m.alternative) =
      [classifyVenue wReq wVenue] := rfl
  simp only [findBestVenues]
  rw [e1, if_neg (by decide), List.mergeSort_singleton]

/-- Witness for C10 at a concrete exact match. -/
theorem exactMatch_score_ge_witness :
    0 < wReq.participants ∧ 80 ≤ (classifyVenue wReq wVenue).score :=
  ⟨by decide, exactMatch_score_ge [wVenue] wReq (by decide) _
    (wReq_exactMatches ▸ List.mem_singleton_self _)⟩

/-! ### C4: suggested slots for a venue booked 09:00-10:00 -/

theorem splitCh_of_not_mem {sep : Char} {l : List Char} (h : sep ∉ l) :
    splitCh sep l = [l] := by
  induction l with
  | nil => rfl
  | cons c t ih =>
    have hc : (c == sep) = false := by
      simp only [beq_eq_false_iff_ne, ne_eq]
      intro e
      exact h (e ▸ List.mem_cons_self c t)
    have ht : sep ∉ t := fun hm => h (List.mem_cons_of_mem _ hm)
    simp [splitCh, ih ht, hc]

theorem splitCh_append_sep (sep : Char) {l : List Char} (r : List Char) (h : sep ∉ l) :
    splitCh sep (l ++ sep :: r) = l :: splitCh sep r := by
  induction l with
  | nil => simp [splitCh]
  | cons c t ih =>
    have hc : (c == sep) = false := by
      simp only [beq_eq_false_iff_ne, ne_eq]
      intro e
      exact h (e ▸ List.mem_cons_self c t)
    have ht : sep ∉ t := fun hm => h (List.mem_cons_of_mem _ hm)
    simp [splitCh, ih ht, hc]

/-- Counterexample to C4: for the requested date `2025-09-26` and booked slot
`2025-09-26 09:00-10:00`, the code returns `["14:00", "15:00", "16:00"]`:
`11:00` is *excluded*, because the booked end time 10:00 also enters the
booked-times set and `|11:00 - 10:00| = 1h < 2h`. -/
theorem getSuggestedTimeSlots_c4 :
    getSuggestedTimeSlots c4Venue "2025-09-26" = ["14:00", "15:00", "16:00"] ∧
    "11:00" ∉ getSuggestedTimeSlots c4Venue "2025-09-26" := by
  constructor
  · decide
  · decide

/-- C4 amended: a venue whose only booked slot is `<date> 09:00-10:00` for
the (space-free) requested date yields suggestions `14:00, 15:00, 16:00`:
the candidates 09:00, 10:00 and 11:00 are all within two hours of a booked
time (11:00 is one hour after the 10:00 end time). -/
theorem getSuggestedTimeSlots_booked_morning (v : Venue) (d : String)
    (hd : ' ' ∉ d.data)
    (hb : v.booked_slots = some [d ++ " 09:00-10:00"]) :
    getSuggestedTimeSlots v d = ["14:00", "15:00", "16:00"] := by
  have hdata : (d ++ " 09:00-10:00").data = d.data ++ (' ' :: "09:00-10:00".data) := by
    rw [String.data_append]
  have hinc : jsIncludes (d ++ " 09:00-10:00") d = true :=
    (jsIncludes_iff _ _).mpr ⟨[], ' ' :: "09:00-10:00".data, by rw [hdata]; rfl⟩
  have hsplit : splitCh ' ' (d ++ " 09:00-10:00").data = [d.data, "09:00-10:00".data] := by
    rw [hdata, splitCh_append_sep ' ' _ hd]
    rfl
  unfold getSuggestedTimeSlots
  rw [hb]
  simp only [List.isEmpty_cons, Bool.false_eq_true, if_false, List.filter_cons, hinc,
    List.filter_nil, if_true, List.map_cons, List.map_nil, hsplit,
    List.getElem?_cons_succ, List.getElem?_cons_zero]
  decide

/-- Witness for the amended C4 theorem at a concrete date. -/
theorem getSuggestedTimeSlots_booked_morning_witness :
    getSuggestedTimeSlots c4Venue "2025-09-26" = ["14:00", "15:00", "16:00"] :=
  getSuggestedTimeSlots_booked_morning c4Venue "2025-09-26" (by decide) rfl

/-! ### C5: empty facilities with non-empty requirements -/

theorem c5_alternatives :
    (findBestVenues [c5Venue] c5Req).alternatives = [classifyVenue c5Req c5Venue] := by
  have e2 : ([c5Venue].map (classifyVenue c5Req)).filter (fun m => m.alternative) =
      [classifyVenue c5Req c5Venue] := rfl
  simp only [findBestVenues]
  rw [e2, List.mergeSort_singleton]
  rfl

/-- Counterexample to C5: `c5Venue` has an empty facility list and `c5Req`
requires a facility, yet its reason is the "Too small" message, not one
beginning with "Missing facilities:" (the area branch takes precedence). -/
theorem c5_counterexample :
    c5Venue.facilities = some [] ∧ c5Req.facilitiesRequired ≠ [] ∧
    (findBestVenues [c5Venue] c5Req).alternatives.map (fun m => m.reason) =
      ["Too small: Needs 60 sq ft, has 0 sq ft"] ∧
    ¬∃ rest, (classifyVenue c5Req c5Venue).reason = "Missing facilities:" ++ rest := by
  refine ⟨rfl, by decide, ?_, ?_⟩
  · rw [c5_alternatives]; rfl
  · rintro ⟨rest, hr⟩
    have hdat := congrArg String.data hr
    rw [String.data_append] at hdat
    have h4 : ('T' : Char) = 'M' := congrArg (fun l => l.getD 0 'x') hdat
    exact absurd h4 (by decide)

/-- C5 amended: a venue with an absent or empty facility list and a non-empty
requirement list is always classified alternative (and so never appears among
the exact matches); its reason begins with "Missing facilities:" only when it
additionally passes the area and availability checks, the earlier reason
branches taking precedence otherwise. -/
theorem emptyFacilities_alternative (venues : List Venue) (r : EventRequirements) (v : Venue)
    (hv : v ∈ venues)
    (hfac : v.facilities = none ∨ v.facilities = some [])
    (hreq : r.facilitiesRequired ≠ []) :
    (classifyVenue r v).alternative = true ∧
    (∀ m ∈ (findBestVenues venues r).exactMatches, m.venue ≠ v) ∧
    (calculateRequiredArea r.participants ≤ v.area_sqft →
     isVenueAvailable v r.preferredDate r.preferredTime = true →
     ∃ rest, (classifyVenue r v).reason = "Missing facilities:" ++ rest) := by
  have hhf : hasFacilities v r.facilitiesRequired = false := by
    unfold hasFacilities
    rw [if_neg (by simpa using isEmpty_false_of_ne_nil hreq)]
    rcases hfac with h | h <;> rw [h] <;> rfl
  have halt : (classifyVenue r v).alternative = true := by
    simp only [classifyVenue, hhf]
    simp
  refine ⟨halt, ?_, ?_⟩
  · intro m hm hveq
    obtain ⟨hmem, hmalt⟩ := mem_exactMatches hm
    obtain ⟨w, hw, rfl⟩ := List.mem_map.mp hmem
    rw [classifyVenue_venue] at hveq
    subst hveq
    rw [halt] at hmalt
    exact Bool.noConfusion hmalt
  · intro haM hav
    refine ⟨" " ++ String.intercalate ", " (missingFacilities r v), ?_⟩
    have h1 : decide (calculateRequiredArea r.participants ≤ v.area_sqft) = true :=
      decide_eq_true haM
    simp only [classifyVenue, h1, hav, hhf]
    simp only [Bool.and_true, Bool.and_false, Bool.false_eq_true, if_false,
      Bool.not_true, Bool.not_false, if_true]
    rw [← String.append_assoc]
    rfl

/-- Witness for the amended C5 theorem: a large available venue with an empty
facility list, where all three conclusions are concrete. -/
theorem emptyFacilities_alternative_witness :
    (classifyVenue c5Req c5BigVenue).alternative = true ∧
    (∀ m ∈ (findBestVenues [c5BigVenue] c5Req).exactMatches, m.venue ≠ c5BigVenue) ∧
    (calculateRequiredArea c5Req.participants ≤ c5BigVenue.area_sqft →
     isVenueAvailable c5BigVenue c5Req.preferredDate c5Req.preferredTime = true →
     ∃ rest, (classifyVenue c5Req c5BigVenue).reason = "Missing facilities:" ++ rest) :=
  emptyFacilities_alternative [c5BigVenue] c5Req c5BigVenue
    (List.mem_singleton_self _) (Or.inr rfl) (by decide)

/-! ### C6: the missing-facilities list -/

/-- Counterexample to C6: "Air Conditioning System" matches the venue
facility "Conditioning" under the bidirectional test of `hasFacilities`
(the facility is a substring of the requirement), yet it still appears in
the "Missing facilities:" reason, whose filter tests only whether a venue
facility contains the requirement. -/
theorem c6_counterexample :
    (classifyVenue c6Req c6Venue).reason =
      "Missing facilities: Air Conditioning System, Projector" ∧
    bidirUnmatched c6Req c6Venue = ["Projector"] ∧
    missingFacilities c6Req c6Venue ≠ bidirUnmatched c6Req c6Venue := by
  refine ⟨by decide, by decide, by decide⟩

/-- C6 amended: when the "Missing facilities:" reason is produced (area and
availability pass, facilities fail), the comma-joined list consists exactly
of the required labels that no venue facility *contains* after lowercasing —
the one-directional test, not the bidirectional test of `hasFacilities`. -/
theorem missingFacilities_reason (r : EventRequirements) (v : Venue)
    (haM : calculateRequiredArea r.participants ≤ v.area_sqft)
    (hav : isVenueAvailable v r.preferredDate r.preferredTime = true)
    (hfac : hasFacilities v r.facilitiesRequired = false) :
    (classifyVenue r v).reason =
      "Missing facilities: " ++ String.intercalate ", " (missingFacilities r v) ∧
    ∀ s, s ∈ missingFacilities r v ↔
      s ∈ r.facilitiesRequired ∧
        ∀ f ∈ v.facilities.getD [],
          ¬∃ p q, (jsToLower f).data = p ++ (jsToLower s).data ++ q := by
  constructor
  · have h1 : decide (calculateRequiredArea r.participants ≤ v.area_sqft) = true :=
      decide_eq_true haM
    simp only [classifyVenue, h1, hav, hfac]
    simp only [Bool.and_true, Bool.and_false, Bool.false_eq_true, if_false,
      Bool.not_true, Bool.not_false, if_true]
  · intro s
    simp only [missingFacilities, List.mem_filter, Bool.not_eq_true',
      List.any_eq_false, jsIncludes_iff]

/-- Witness for the amended C6 theorem at the concrete C6 input. -/
theorem missingFacilities_reason_witness :
    (classifyVenue c6Req c6Venue).reason =
      "Missing facilities: " ++ String.intercalate ", " (missingFacilities c6Req c6Venue) ∧
    ∀ s, s ∈ missingFacilities c6Req c6Venue ↔
      s ∈ c6Req.facilitiesRequired ∧
        ∀ f ∈ c6Venue.facilities.getD [],
          ¬∃ p q, (jsToLower f).data = p ++ (jsToLower s).data ++ q :=
  missingFacilities_reason c6Req c6Venue (by decide) (by decide) (by decide)

/-! ### C1: partition of venues over the two output lists -/

/-- Counterexample to C1: with four venues all classified alternative,
`c1Venue4` (the lowest-scoring one) is a member of the catalog but of
neither returned list — the alternatives list is capped at 3 entries. -/
theorem c1_counterexample :
    c1Venue4 ∈ c1Catalog ∧
    (∀ m ∈ (findBestVenues c1Catalog c1Req).exactMatches, m.venue ≠ c1Venue4) ∧
    (∀ m ∈ (findBestVenues c1Catalog c1Req).alternatives, m.venue ≠ c1Venue4) := by
  have s1 : (classifyVenue c1Req c1Venue1).score = 100 := by
    simp only [classifyVenue, calculateScore]
    rw [if_neg (by decide), if_pos (by decide), if_pos (by decide), if_pos (by decide),
      if_neg (by decide)]
    norm_num
  have s2 : (classifyVenue c1Req c1Venue2).score = 100 := by
    simp only [classifyVenue, calculateScore]
    rw [if_neg (by decide), if_pos (by decide), if_pos (by decide), if_pos (by decide),
      if_neg (by decide)]
    norm_num
  have s3 : (classifyVenue c1Req c1Venue3).score = 100 := by
    simp only [classifyVenue, calculateScore]
    rw [if_neg (by decide), if_pos (by decide), if_pos (by decide), if_pos (by decide),
      if_neg (by decide)]
    norm_num
  have s4 : (classifyVenue c1Req c1Venue4).score = 80 := by
    simp only [classifyVenue, calculateScore]
    rw [if_neg (by decide), if_pos (by decide), if_pos (by decide), if_neg (by decide),
      if_neg (by decide)]
    norm_num
  have e1 : (c1Catalog.map (classifyVenue c1Req)).filter (fun m => !m.alternative) = [] := rfl
  have e2 : (c1Catalog.map (classifyVenue c1Req)).filter (fun m => m.alternative) =
      [classifyVenue c1Req c1Venue1, classifyVenue c1Req c1Venue2,
       classifyVenue c1Req c1Venue3, classifyVenue c1Req c1Venue4] := rfl
  have hpair : List.Pairwise (fun a b => scoreDescLe a b = true)
      [classifyVenue c1Req c1Venue1, classifyVenue c1Req c1Venue2,
       classifyVenue c1Req c1Venue3, classifyVenue c1Req c1Venue4] := by
    simp only [List.pairwise_cons, List.mem_cons, List.not_mem_nil, or_false,
      forall_eq_or_imp, forall_eq, List.Pairwise.nil, and_true]
    simp only [scoreDescLe, s1, s2, s3, s4, decide_eq_true_eq]
    norm_num
  have hsorted := List.mergeSort_of_sorted hpair
  have halts : (findBestVenues c1Catalog c1Req).alternatives =
      [classifyVenue c1Req c1Venue1, classifyVenue c1Req c1Venue2,
       classifyVenue c1Req c1Venue3] := by
    simp only [findBestVenues]
    rw [e2, hsorted]
    rfl
  have hexact : (findBestVenues c1Catalog c1Req).exactMatches = [] := by
    simp only [findBestVenues]
    rw [if_neg (by decide), e1, List.mergeSort_nil]
  refine ⟨by decide, ?_, ?_⟩
  · intro m hm
    rw [hexact] at hm
    exact absurd hm (List.not_mem_nil m)
  · intro m hm heq
    rw [halts] at hm
    simp only [List.mem_cons, List.not_mem_nil, or_false] at hm
    rcases hm with rfl | rfl | rfl <;> exact absurd heq (by decide)

/-- C1 amended: no venue ever appears in both returned lists; a venue
classified as an exact match always appears in `exactMatches`; a venue
classified as an alternative never appears in `exactMatches` and appears in
`alternatives` whenever at most 3 venues are classified alternative (the
returned alternatives are capped at the top 3 by score, so such a venue may
be omitted only when more than 3 venues are classified alternative). -/
theorem venue_in_one_bucket (venues : List Venue) (r : EventRequirements) (v : Venue)
    (hv : v ∈ venues) :
    ¬(v ∈ (findBestVenues venues r).exactMatches.map (fun m => m.venue) ∧
      v ∈ (findBestVenues venues r).alternatives.map (fun m => m.venue)) ∧
    ((classifyVenue r v).alternative = false →
      v ∈ (findBestVenues venues r).exactMatches.map (fun m => m.venue)) ∧
    ((classifyVenue r v).alternative = true →
      v ∉ (findBestVenues venues r).exactMatches.map (fun m => m.venue) ∧
      (((venues.map (classifyVenue r)).filter (fun m => m.alternative)).length ≤ 3 →
        v ∈ (findBestVenues venues r).alternatives.map (fun m => m.venue))) ∧
    (findBestVenues venues r).alternatives.length ≤ 3 := by
  refine ⟨?_, ?_, ?_, ?_⟩
  · rintro ⟨hx, ha⟩
    obtain ⟨m1, hm1, hm1v⟩ := List.mem_map.mp hx
    obtain ⟨m2, hm2, hm2v⟩ := List.mem_map.mp ha
    obtain ⟨hmem1, hf1⟩ := mem_exactMatches hm1
    obtain ⟨hmem2, hf2⟩ := mem_alternatives hm2
    obtain ⟨w1, hw1, rfl⟩ := List.mem_map.mp hmem1
    obtain ⟨w2, hw2, rfl⟩ := List.mem_map.mp hmem2
    rw [classifyVenue_venue] at hm1v hm2v
    subst hm1v
    subst hm2v
    exact Bool.noConfusion (hf1.symm.trans hf2)
  · intro hflag
    refine List.mem_map.mpr ⟨classifyVenue r v, ?_, classifyVenue_venue r v⟩
    have hmem : classifyVenue r v ∈
        (venues.map (classifyVenue r)).filter (fun m => !m.alternative) :=
      List.mem_filter.mpr ⟨List.mem_map_of_mem _ hv, by rw [hflag]; rfl⟩
    simp only [findBestVenues]
    split_ifs with hc
    · exact List.mem_mergeSort.mpr (List.mem_mergeSort.mpr hmem)
    · exact List.mem_mergeSort.mpr hmem
  · intro halt
    constructor
    · intro hx
      obtain ⟨m, hm, hmv⟩ := List.mem_map.mp hx
      obtain ⟨hmem, hf⟩ := mem_exactMatches hm
      obtain ⟨w, hw, rfl⟩ := List.mem_map.mp hmem
      rw [classifyVenue_venue] at hmv
      subst hmv
      exact Bool.noConfusion (hf.symm.trans halt)
    · intro hlen
      have hmem : classifyVenue r v ∈
          (venues.map (classifyVenue r)).filter (fun m => m.alternative) :=
        List.mem_filter.mpr ⟨List.mem_map_of_mem _ hv, halt⟩
      refine List.mem_map.mpr ⟨classifyVenue r v, ?_, classifyVenue_venue r v⟩
      simp only [findBestVenues]
      rw [List.take_of_length_le (by rw [List.length_mergeSort]; exact hlen)]
      exact List.mem_mergeSort.mpr hmem
  · simp only [findBestVenues]
    rw [List.length_take]
    exact min_le_left _ _

/-- Witness for the amended C1 theorem on a two-venue catalog holding one
exact match and one alternative, discharging every implication: the exact
match is in `exactMatches`, the alternative is absent from `exactMatches`
and present in `alternatives`, and the alternatives list is within the cap. -/
theorem venue_in_one_bucket_witness :
    wVenue ∈ (findBestVenues [wVenue, c5Venue] wReq).exactMatches.map (fun m => m.venue) ∧
    c5Venue ∉ (findBestVenues [wVenue, c5Venue] wReq).exactMatches.map (fun m => m.venue) ∧
    c5Venue ∈ (findBestVenues [wVenue, c5Venue] wReq).alternatives.map (fun m => m.venue) ∧
    (findBestVenues [wVenue, c5Venue] wReq).alternatives.length ≤ 3 :=
  ⟨(venue_in_one_bucket [wVenue, c5Venue] wReq wVenue (by decide)).2.1 (by decide),
   ((venue_in_one_bucket [wVenue, c5Venue] wReq c5Venue (by decide)).2.2.1 (by decide)).1,
   ((venue_in_one_bucket [wVenue, c5Venue] wReq c5Venue (by decide)).2.2.1 (by decide)).2
     (by decide),
   (venue_in_one_bucket [wVenue, c5Venue] wReq wVenue (by decide)).2.2.2⟩

/-! ### C3: the high-priority tie-break ordering -/

theorem tFun_anti {R : ℚ} (hR : 0 < R) {a b : Int} (h : a ≤ b) : tFun R b ≤ tFun R a := by
  unfold tFun qmax
  have hdiv : (a : ℚ) / R ≤ (b : ℚ) / R :=
    (div_le_div_iff_of_pos_right hR).mpr (by exact_mod_cast h)
  split_ifs <;> linarith

theorem sortStep_fact {s1 s2 A : ℚ}
    (g : (if |s1 - s2| < 10 then A else s2 - s1) ≤ 0) :
    ((-10 < s1 - s2 ∧ s1 - s2 < 10) ∧ A ≤ 0) ∨ (10 ≤ s1 - s2 ∧ s2 ≤ s1) := by
  split_ifs at g with b
  · exact Or.inl ⟨abs_lt.mp b, g⟩
  · have hs : s2 ≤ s1 := by linarith
    have habs : |s1 - s2| = s1 - s2 := abs_of_nonneg (by linarith)
    have h10 := not_lt.mp b
    rw [habs] at h10
    exact Or.inr ⟨h10, hs⟩

set_option maxHeartbeats 1600000 in
theorem tieTrans_core (R : ℚ) (hR : 0 < R) (a1 a2 a3 : Int) (c1 c2 c3 s1 s2 s3 : ℚ)
    (h1 : c1 = 0 ∨ c1 = 20) (h2 : c2 = 0 ∨ c2 = 20) (h3 : c3 = 0 ∨ c3 = 20)
    (e1 : s1 = tFun R a1 + c1 + 90) (e2 : s2 = tFun R a2 + c2 + 90)
    (e3 : s3 = tFun R a3 + c3 + 90)
    (g12 : (if |s1 - s2| < 10 then ((a1 : ℚ) - (a2 : ℚ)) else s2 - s1) ≤ 0)
    (g23 : (if |s2 - s3| < 10 then ((a2 : ℚ) - (a3 : ℚ)) else s3 - s2) ≤ 0) :
    (if |s1 - s3| < 10 then ((a1 : ℚ) - (a3 : ℚ)) else s3 - s1) ≤ 0 := by
  have KA : (((a1 : ℚ) < (a2 : ℚ)) ∧ tFun R a2 ≤ tFun R a1) ∨
      (((a1 : ℚ) = (a2 : ℚ)) ∧ tFun R a1 = tFun R a2) ∨
      (((a2 : ℚ) < (a1 : ℚ)) ∧ tFun R a1 ≤ tFun R a2) := by
    rcases lt_trichotomy a1 a2 with h | h | h
    · exact Or.inl ⟨by exact_mod_cast h, tFun_anti hR h.le⟩
    · exact Or.inr (Or.inl ⟨by rw [h], by rw [h]⟩)
    · exact Or.inr (Or.inr ⟨by exact_mod_cast h, tFun_anti hR h.le⟩)
  have KB : (((a1 : ℚ) < (a3 : ℚ)) ∧ tFun R a3 ≤ tFun R a1) ∨
      (((a1 : ℚ) = (a3 : ℚ)) ∧ tFun R a1 = tFun R a3) ∨
      (((a3 : ℚ) < (a1 : ℚ)) ∧ tFun R a1 ≤ tFun R a3) := by
    rcases lt_trichotomy a1 a3 with h | h | h
    · exact Or.inl ⟨by exact_mod_cast h, tFun_anti hR h.le⟩
    · exact Or.inr (Or.inl ⟨by rw [h], by rw [h]⟩)
    · exact Or.inr (Or.inr ⟨by exact_mod_cast h, tFun_anti hR h.le⟩)
  have KC : (((a2 : ℚ) < (a3 : ℚ)) ∧ tFun R a3 ≤ tFun R a2) ∨
      (((a2 : ℚ) = (a3 : ℚ)) ∧ tFun R a2 = tFun R a3) ∨
      (((a3 : ℚ) < (a2 : ℚ)) ∧ tFun R a2 ≤ tFun R a3) := by
    rcases lt_trichotomy a2 a3 with h | h | h
    · exact Or.inl ⟨by exact_mod_cast h, tFun_anti hR h.le⟩
    · exact Or.inr (Or.inl ⟨by rw [h], by rw [h]⟩)
    · exact Or.inr (Or.inr ⟨by exact_mod_cast h, tFun_anti hR h.le⟩)
  have G12 := sortStep_fact g12
  have G23 := sortStep_fact g23
  clear g12 g23
  subst e1
  subst e2
  subst e3
  split_ifs with b3
  · have hb3 := abs_lt.mp b3
    obtain ⟨hb3l, hb3r⟩ := hb3
    casesm* _ ∨ _, _ ∧ _ <;> linarith
  · by_contra hcon
    push_neg at hcon
    have habs : |tFun R a1 + c1 + 90 - (tFun R a3 + c3 + 90)| =
        tFun R a3 + c3 + 90 - (tFun R a1 + c1 + 90) := by
      rw [abs_sub_comm]
      exact abs_of_nonneg (by linarith)
    have hb3 := not_lt.mp b3
    rw [habs] at hb3
    casesm* _ ∨ _, _ ∧ _ <;> linarith

theorem tieCmp_antisymm (a b : VenueMatch) : tieCmp b a = -tieCmp a b := by
  unfold tieCmp
  rw [abs_sub_comm]
  split_ifs <;> ring

theorem tieLe_total (a b : VenueMatch) : tieLe a b || tieLe b a := by
  unfold tieLe
  rcases le_total (tieCmp a b) 0 with h | h
  · simp [h]
  · have h2 : tieCmp b a ≤ 0 := by rw [tieCmp_antisymm]; linarith
    simp [h2]

theorem tieOrdered_of_tieLe {a b : VenueMatch} (h : tieLe a b = true) : tieOrdered a b := by
  unfold tieLe at h
  rw [decide_eq_true_eq] at h
  unfold tieCmp at h
  constructor
  · intro hlt
    rw [if_pos hlt] at h
    have hq : (a.venue.area_sqft : ℚ) ≤ (b.venue.area_sqft : ℚ) := by linarith
    exact_mod_cast hq
  · intro h10
    rw [if_neg (not_lt.mpr h10)] at h
    have hle : b.score ≤ a.score := by linarith
    rcases eq_or_lt_of_le hle with heq | hlt
    · exfalso
      rw [heq, sub_self, abs_zero] at h10
      linarith
    · exact hlt

theorem exactInv_of_mem {r : EventRequirements} (hpr : r.priority = Priority.high)
    {venues : List Venue} {m : VenueMatch}
    (hmem : m ∈ venues.map (classifyVenue r)) (halt : m.alternative = false) :
    ExactInv r m := by
  obtain ⟨v, hv, rfl⟩ := List.mem_map.mp hmem
  simp only [classifyVenue, Bool.or_eq_false_iff, Bool.not_eq_false'] at halt
  obtain ⟨⟨haM, hav⟩, hfac⟩ := halt
  refine ⟨if r.participants ≤ v.capacity then (20 : ℚ) else 0, ?_, ?_⟩
  · split_ifs
    · exact Or.inr rfl
    · exact Or.inl rfl
  · simp only [classifyVenue, calculateScore]
    rw [haM, hav, hfac, if_pos hpr]
    simp only [eq_self_iff_true, if_true]
    unfold tFun
    ring

theorem pairwise_tieLe_mergeSort (r : EventRequirements) (l : List VenueMatch)
    (hR : (0 : ℚ) < ((calculateRequiredArea r.participants : Int) : ℚ))
    (hInv : ∀ m ∈ l, ExactInv r m) :
    (l.mergeSort tieLe).Pairwise (fun a b => tieLe a b = true) := by
  have hmap : ((l.attach.mergeSort (fun a b => tieLe a.1 b.1)).map Subtype.val)
      = l.mergeSort tieLe := by
    have h1 := @List.map_mergeSort _ _ (fun a b : {m // m ∈ l} => tieLe a.1 b.1)
      tieLe Subtype.val l.attach (fun a _ b _ => rfl)
    rw [List.attach_map_subtype_val] at h1
    exact h1
  have htrans : ∀ (x y z : {m // m ∈ l}),
      tieLe x.1 y.1 → tieLe y.1 z.1 → tieLe x.1 z.1 := by
    intro x y z hxy hyz
    obtain ⟨cx, hcx, hsx⟩ := hInv x.1 x.2
    obtain ⟨cy, hcy, hsy⟩ := hInv y.1 y.2
    obtain ⟨cz, hcz, hsz⟩ := hInv z.1 z.2
    simp only [tieLe, decide_eq_true_eq] at hxy hyz ⊢
    unfold tieCmp at hxy hyz ⊢
    exact tieTrans_core _ hR _ _ _ _ _ _ _ _ _ hcx hcy hcz hsx hsy hsz hxy hyz
  have htotal : ∀ (x y : {m // m ∈ l}), tieLe x.1 y.1 || tieLe y.1 x.1 :=
    fun x y => tieLe_total x.1 y.1
  have hsorted := List.sorted_mergeSort htrans htotal l.attach
  rw [← hmap]
  exact List.Pairwise.map Subtype.val (fun a b h => h) hsorted

/-- C3: for a high-priority request, any two entries of `exactMatches`
whose scores differ by less than 10 are ordered with the smaller-area venue
first, and any two whose scores differ by 10 or more are ordered by
descending score. -/
theorem highPriority_tieBreak (venues : List Venue) (r : EventRequirements)
    (hpr : r.priority = Priority.high) (hp : 0 < r.participants) :
    ((findBestVenues venues r).exactMatches).Pairwise tieOrdered := by
  have hRZ : (0 : Int) < calculateRequiredArea r.participants := by
    unfold calculateRequiredArea; omega
  have hR : (0 : ℚ) < ((calculateRequiredArea r.participants : Int) : ℚ) := by
    exact_mod_cast hRZ
  simp only [findBestVenues]
  split_ifs with hc
  · have hInv : ∀ m ∈ ((venues.map (classifyVenue r)).filter
        (fun m => !m.alternative)).mergeSort scoreDescLe, ExactInv r m := by
      intro m hm
      rw [List.mem_mergeSort] at hm
      obtain ⟨hmem, hflag⟩ := List.mem_filter.mp hm
      rw [Bool.not_eq_true'] at hflag
      exact exactInv_of_mem hpr hmem hflag
    have hp2 := pairwise_tieLe_mergeSort r _ hR hInv
    exact List.Pairwise.imp (fun h => tieOrdered_of_tieLe h) hp2
  · have hnil : (venues.map (classifyVenue r)).filter (fun m => !m.alternative) = [] := by
      by_contra hne
      exact hc ⟨hpr, hne⟩
    rw [hnil, List.mergeSort_nil]
    exact List.Pairwise.nil

/-- Witness for the C3 theorem at a concrete high-priority input. -/
theorem highPriority_tieBreak_witness :
    ((findBestVenues [wVenue] c3Req).exactMatches).Pairwise tieOrdered :=
  highPriority_tieBreak [wVenue] c3Req rfl (by decide)

/-! ### Remaining witnesses -/

/-- Witness for C7 at a concrete venue and requirement set. -/
theorem calculateScore_bounds_witness :
    0 < wReq.participants ∧
    (0 ≤ calculateScore wVenue wReq true true
        (decide (calculateRequiredArea wReq.participants ≤ wVenue.area_sqft)) ∧
     calculateScore wVenue wReq true true
        (decide (calculateRequiredArea wReq.participants ≤ wVenue.area_sqft)) ≤ 210) :=
  ⟨by decide, calculateScore_bounds wVenue wReq true true (by decide)⟩

/-- Witness for C8 at a concrete under-capacity venue, with the capacity and
priority implications discharged. -/
theorem calculateScore_monotone_witness :
    calculateScore c1Venue4 c1Req true false false ≤
      calculateScore c1Venue4 c1Req true false true ∧
    calculateScore c1Venue4 c1Req false false true ≤
      calculateScore c1Venue4 c1Req true false true ∧
    calculateScore c1Venue4 c1Req true false true ≤
      calculateScore c1Venue4 c1Req true true true ∧
    calculateScore c1Venue4 c1Req true false true ≤
      calculateScore { c1Venue4 with capacity := 50 } c1Req true false true ∧
    calculateScore c1Venue4 c1Req true false true ≤
      calculateScore c1Venue4 { c1Req with priority := Priority.high } true false true :=
  ⟨(calculateScore_monotone c1Venue4 c1Req true false true 50).1,
   (calculateScore_monotone c1Venue4 c1Req true false true 50).2.1,
   (calculateScore_monotone c1Venue4 c1Req true false true 50).2.2.1,
   (calculateScore_monotone c1Venue4 c1Req true false true 50).2.2.2.1 (by decide) (by decide),
   (calculateScore_monotone c1Venue4 c1Req true false true 50).2.2.2.2 (by decide)⟩

/-- Witness for C9 at a concrete malformed slot. -/
theorem malformedSlot_noConflict_witness :
    jsIncludes "2025-09-26 morning" "2025-09-26" = true ∧
    (slotConflicts "2025-09-26" "10:00" "2025-09-26 morning" = false ∧
     ∀ (venue : Venue) (rest : List String),
       venue.booked_slots = some ("2025-09-26 morning" :: rest) →
       isVenueAvailable venue "2025-09-26" "10:00" =
         isVenueAvailable { venue with booked_slots := some rest } "2025-09-26" "10:00") :=
  ⟨by decide,
    malformedSlot_noConflict "2025-09-26 morning" "2025-09-26" "10:00" (by decide)
      (Or.inr (fun tr htr => by injection htr with h; rw [← h]; decide))⟩
